import Mathlib

/-!
Wake-on-LAN CLI: configuration model, name lookup, address parsing, dispatch.

A shallow embedding of `config/config.go` and `cmd/send.go`.

Go strings are embedded as Lean `String` (valid UTF-8 text); where the code
works on the bytes of a string (`net.ParseMAC`) the UTF-8 encoding is taken
explicitly.  Bytes are natural numbers below 256.
-/

set_option autoImplicit false

namespace Wol

deriving instance DecidableEq for Except

/-! ## config/config.go: data model -/

/-- HTTP represents the configuration for waking a machine over HTTP. -/
structure HTTP where
  Endpoint : String
  Method : String
  Body : String
  deriving DecidableEq, Repr

/-- Machine represents a machine to wake up.  The pointer fields `HTTP` and
`IP` of the Go struct are options: `none` is the nil pointer. -/
structure Machine where
  Name : String
  Mac : String
  HTTP : Option HTTP
  IP : Option String
  deriving DecidableEq, Repr

/-- The Go enumeration `WakeMethod` (`WakeMethodUDP = 0`, `WakeMethodHTTP = 1`). -/
inductive WakeMethod where
  | WakeMethodUDP
  | WakeMethodHTTP
  deriving DecidableEq, Repr

/-- The method `(m *Machine) WakeMethod()`. -/
def Machine.WakeMethod (m : Machine) : WakeMethod :=
  if m.HTTP ≠ none then WakeMethod.WakeMethodHTTP else WakeMethod.WakeMethodUDP

/-- Server represents the server configuration. -/
structure Server where
  Listen : String
  deriving DecidableEq, Repr

/-- Ping represents the ping configuration. -/
structure Ping where
  Privileged : Bool
  deriving DecidableEq, Repr

/-- Config represents the configuration for the application. -/
structure Config where
  Machines : List Machine
  Server : Server
  Ping : Ping
  deriving DecidableEq, Repr

/-- NewConfig creates a new Config instance: the zero value of the struct. -/
def NewConfig : Config :=
  { Machines := [], Server := { Listen := "" }, Ping := { Privileged := false } }

/-! ## Go standard library: the delimited formats of `net.ParseMAC` (net/mac.go, net/parse.go) -/

/-- A `net.HardwareAddr`: a byte slice.  The nil slice is the empty list. -/
abbrev HardwareAddr := List Nat

/-- The bytes of a Go string: the UTF-8 encoding of the text. -/
def goBytes (s : String) : List Nat :=
  (s.data.map (fun c => (String.utf8EncodeChar c).map (fun b => b.toNat))).flatten

/-- The constant `big` of net/parse.go. -/
def big : Nat := 0xFFFFFF

/-- The value of one hexadecimal digit byte, as tested in the loop of `xtoi`. -/
def hexVal (c : Nat) : Option Nat :=
  if 48 ≤ c ∧ c ≤ 57 then some (c - 48)
  else if 97 ≤ c ∧ c ≤ 102 then some (c - 97 + 10)
  else if 65 ≤ c ∧ c ≤ 70 then some (c - 65 + 10)
  else none

/-- The loop of `xtoi`: `n` is the number read so far and `i` the count of
bytes consumed.  Returns number, characters consumed, success. -/
def xtoiLoop : List Nat → Nat → Nat → Nat × Nat × Bool
  | [], n, i => if i = 0 then (0, i, false) else (n, i, true)
  | c :: cs, n, i =>
    match hexVal c with
    | some d =>
      if n * 16 + d ≥ big then (0, i, false) else xtoiLoop cs (n * 16 + d) (i + 1)
    | none => if i = 0 then (0, i, false) else (n, i, true)

/-- Hexadecimal to integer (`xtoi` of net/parse.go). -/
def xtoi (s : List Nat) : Nat × Nat × Bool := xtoiLoop s 0 0

/-- The function `xtoi2`: converts the next two hex digits of `s` into a byte.
If `s` is longer than 2 bytes then the third byte must be `e`. -/
def xtoi2 (s : List Nat) (e : Nat) : Nat × Bool :=
  if s.length > 2 ∧ s.getD 2 0 ≠ e then (0, false)
  else
    match xtoi (s.take 2) with
    | (n, ei, ok) => (n % 256, ok && ei == 2)

/-- The loop of the colon/hyphen branch of `net.ParseMAC`: `n` octets, each read
by `xtoi2 (s[x:], s[2])` with `x` advancing by 3. -/
def parseOctets (e : Nat) : Nat → List Nat → Option HardwareAddr
  | 0, _ => some []
  | n + 1, s =>
    match xtoi2 s e with
    | (b, true) => (parseOctets e n (s.drop 3)).map (fun hw => b :: hw)
    | (_, false) => none

/-- The loop of the dotted branch of `net.ParseMAC`: each round reads two octets,
`xtoi2 (s[x:x+2], 0)` and `xtoi2 (s[x+2:], s[4])`, with `x` advancing by 5. -/
def parseGroups (e : Nat) : Nat → List Nat → Option HardwareAddr
  | 0, _ => some []
  | n + 1, s =>
    match xtoi2 (s.take 2) 0 with
    | (b₀, true) =>
      match xtoi2 (s.drop 2) e with
      | (b₁, true) => (parseGroups e n (s.drop 5)).map (fun hw => b₀ :: b₁ :: hw)
      | (_, false) => none
    | (_, false) => none

/-- The message of `&AddrError{Err: err, Addr: addr}`. -/
def AddrError (err addr : String) : String :=
  if addr ≠ "" then "address " ++ addr ++ ": " ++ err else err

/-- The function `net.ParseMAC` on the delimited formats of its documentation
(`00:00:5e:00:53:01`, `00-00-5e-00-53-01`, `0000.5e00.5301` and their 8- and
20-octet forms), after net/mac.go: the hardware address and the error (`none`
is the nil error).  A text in another format is rejected here; which other
formats `net.ParseMAC` accepts depends on the Go release, so the code is
embedded over the field `ParseMAC` of `Platform` and this function only
instantiates it in examples. -/
def ParseMACDelimited (text : String) : HardwareAddr × Option String :=
  let s := goBytes text
  let failure : HardwareAddr × Option String := ([], some (AddrError "invalid MAC address" text))
  if s.length < 14 then failure
  else if s.getD 2 0 = 58 ∨ s.getD 2 0 = 45 then
    if (s.length + 1) % 3 ≠ 0 then failure
    else
      let n := (s.length + 1) / 3
      if n ≠ 6 ∧ n ≠ 8 ∧ n ≠ 20 then failure
      else
        match parseOctets (s.getD 2 0) n s with
        | some hw => (hw, none)
        | none => failure
  else if s.getD 4 0 = 46 then
    if (s.length + 1) % 5 ≠ 0 then failure
    else
      let n := 2 * (s.length + 1) / 5
      if n ≠ 6 ∧ n ≠ 8 ∧ n ≠ 20 then failure
      else
        match parseGroups (s.getD 4 0) (n / 2) s with
        | some hw => (hw, none)
        | none => failure
  else failure

/-! ## Go standard library: `strconv.Quote`, the rendering of the verb `%q` -/

/-- The double quote character, U+0022. -/
def dquote : Char := Char.ofNat 34

/-- The backslash character, U+005C. -/
def backslash : Char := Char.ofNat 92

/-- The digit table `lowerhex` of strconv. -/
def lowerhex (d : Nat) : Char := "0123456789abcdef".data.getD d '0'

/-- The function `strconv.IsPrint`: the Latin-1 fast check is spelled out, the
Unicode tables behind it are the parameter `tables`. -/
def IsPrint (tables : Char → Bool) (r : Char) : Bool :=
  if r.toNat ≤ 0xFF then
    if 0x20 ≤ r.toNat ∧ r.toNat ≤ 0x7E then true
    else if 0xA1 ≤ r.toNat ∧ r.toNat ≤ 0xFF then r.toNat != 0xAD
    else false
  else tables r

/-- The function `appendEscapedRune` of strconv with the double quote as quote
character, `ASCIIonly` and `graphicOnly` false: the text appended for `r`. -/
def appendEscapedRune (tables : Char → Bool) (r : Char) : List Char :=
  if r = dquote ∨ r = backslash then [backslash, r]
  else if IsPrint tables r then [r]
  else if r.toNat = 7 then [backslash, 'a']
  else if r.toNat = 8 then [backslash, 'b']
  else if r.toNat = 12 then [backslash, 'f']
  else if r.toNat = 10 then [backslash, 'n']
  else if r.toNat = 13 then [backslash, 'r']
  else if r.toNat = 9 then [backslash, 't']
  else if r.toNat = 11 then [backslash, 'v']
  else if r.toNat < 0x20 ∨ r.toNat = 0x7f then
    [backslash, 'x', lowerhex (r.toNat / 16 % 16), lowerhex (r.toNat % 16)]
  else if r.toNat < 0x10000 then
    [backslash, 'u'] ++ [12, 8, 4, 0].map (fun s => lowerhex (r.toNat / 2 ^ s % 16))
  else
    [backslash, 'U'] ++
      [28, 24, 20, 16, 12, 8, 4, 0].map (fun s => lowerhex (r.toNat / 2 ^ s % 16))

/-- The function `strconv.Quote` on valid UTF-8 text: a double-quoted Go string
literal. -/
def Quote (tables : Char → Bool) (s : String) : String :=
  ⟨dquote :: (s.data.map (appendEscapedRune tables)).flatten ++ [dquote]⟩

/-! ## The package `magicpacket` and the platform -/

/-- Modelled from the spec: the package `magicpacket` is not among the sources.
`NewMagicPacket` builds the payload of §4.3: 6 synchronization bytes of value
`0xFF`, followed by the hardware address repeated 16 times.  The call in
`cmd/send.go` has a single result, so the builder is total; the spec fixes its
output for 6-octet addresses only. -/
def NewMagicPacket (mac : HardwareAddr) : List Nat :=
  List.replicate 6 0xFF ++ (List.replicate 16 mac).flatten

/-- What the code takes from outside the sources and the model does not fix:
`strings.EqualFold`, `net.ParseMAC` (hardware address and error), the Unicode
tables of `strconv.IsPrint`, and the result of `Broadcast` of package
`magicpacket` on a payload (`none` is the nil error, `some msg` a transport
failure). -/
structure Platform where
  EqualFold : String → String → Bool
  ParseMAC : String → HardwareAddr × Option String
  printTables : Char → Bool
  Broadcast : List Nat → Option String

/-- The function `strings.EqualFold` on ASCII text, following the ASCII fast
path of the Go implementation: two bytes match when they are equal or when the
smaller is an upper-case letter and the larger is its lower-case form. -/
def equalFoldASCII : List Char → List Char → Bool
  | [], [] => true
  | sr :: s, tr :: t =>
    if tr = sr then equalFoldASCII s t
    else
      let lo := min sr.toNat tr.toNat
      let hi := max sr.toNat tr.toNat
      if 65 ≤ lo ∧ lo ≤ 90 ∧ hi = lo + 97 - 65 then equalFoldASCII s t else false
  | _, _ => false

/-- A platform for ASCII names and delimited MAC texts on which every
broadcast succeeds. -/
def asciiPlatform : Platform :=
  { EqualFold := fun s t => equalFoldASCII s.data t.data
    ParseMAC := ParseMACDelimited
    printTables := fun _ => false
    Broadcast := fun _ => none }

/-! ## cmd/send.go -/

/-- The flags of the `send` command after parsing: `some v` is a flag the user
supplied with value `v` (`Changed` reports true), `none` a flag left at its
default. -/
structure Flags where
  mac : Option String
  name : Option String
  deriving DecidableEq, Repr

/-- The call `cmd.Flags().Changed(...)` for the flag `mac`. -/
def Flags.macChanged (flags : Flags) : Bool := flags.mac.isSome

/-- The call `cmd.Flags().Changed(...)` for the flag `name`. -/
def Flags.nameChanged (flags : Flags) : Bool := flags.name.isSome

/-- The hook `PreRunE` of `sendCmd`: the error, `none` for nil. -/
def PreRunE (flags : Flags) : Option String :=
  if flags.macChanged = flags.nameChanged then
    some "either --mac or --name must be specified"
  else none

/-- The loop of `getMachineByName` over `cfg.Machines`. -/
def findMachine (P : Platform) (name : String) : List Machine → Option Machine
  | [] => none
  | machine :: rest =>
    if P.EqualFold machine.Name name then some machine else findMachine P name rest

/-- The function `getMachineByName`: the machine pointer (`none` is nil) and
the error (`none` is nil).  The global `cfg` is the parameter `cfg`. -/
def getMachineByName (P : Platform) (cfg : Config) (name : String) :
    Option Machine × Option String :=
  match findMachine P name cfg.Machines with
  | some machine => (some machine, none)
  | none => (none, some ("machine with name " ++ Quote P.printTables name ++ " not found"))

/-- The function `getMac`: the hardware address and the error. -/
def getMac (P : Platform) (machine : Machine) : HardwareAddr × Option String :=
  match P.ParseMAC machine.Mac with
  | (_, some err) => ([], some ("failed to parse MAC address: " ++ err))
  | (mac, none) => (mac, none)

/-- An outbound network operation. -/
inductive Effect where
  /-- The call `mp.Broadcast()` for a packet with this payload. -/
  | udpBroadcast (payload : List Nat)
  /-- An HTTP request with this method, endpoint and body. -/
  | httpRequest (method endpoint body : String)
  deriving DecidableEq, Repr

/-- How an invocation of the command ends. -/
inductive Exit where
  /-- The function `Run` returned. -/
  | done
  /-- The hook `PreRunE` returned this error; `Run` was not called. -/
  | preRunError (msg : String)
  /-- The call `cobra.CheckErr(err)` with a non-nil error: exit status 1. -/
  | checkErr (msg : String)
  /-- The call `log.Fatalf`: exit status 1. -/
  | logFatal (msg : String)
  /-- A nil pointer dereference. -/
  | nilPanic
  deriving DecidableEq, Repr

/-- The switch of `Run` that retrieves the mac address using one of the
flags: the address, or the way the process ends. -/
def retrieveMac (P : Platform) (cfg : Config) (flags : Flags) : Except Exit HardwareAddr :=
  match flags.mac, flags.name with
  | some value, _ =>
    match P.ParseMAC value with
    | (_, some err) => .error (.checkErr err)
    | (mac, none) => .ok mac
  | none, some name =>
    match getMachineByName P cfg name with
    | (_, some err) => .error (.checkErr err)
    | (none, none) => .error .nilPanic
    | (some machine, none) =>
      match getMac P machine with
      | (_, some err) => .error (.checkErr err)
      | (mac, none) => .ok mac
  | none, none => .error (.logFatal "mac address should come from either --mac or --name")

/-- The function `Run` of `sendCmd`: the network operations it performs, in
order, and how it ends.  Log lines are not modelled. -/
def Run (P : Platform) (cfg : Config) (flags : Flags) : List Effect × Exit :=
  match retrieveMac P cfg flags with
  | .error e => ([], e)
  | .ok mac =>
    match P.Broadcast (NewMagicPacket mac) with
    | some err => ([.udpBroadcast (NewMagicPacket mac)], .checkErr err)
    | none => ([.udpBroadcast (NewMagicPacket mac)], .done)

/-- The way cobra runs a command: `PreRunE` first, and `Run` only when it
returned nil. -/
def execute (P : Platform) (cfg : Config) (flags : Flags) : List Effect × Exit :=
  match PreRunE flags with
  | some err => ([], .preRunError err)
  | none => Run P cfg flags

/-! ## config/config.go: Load -/

/-- The constant `configFilename`. -/
def configFilename : String := "config.yaml"

/-- A value of a YAML document under a key that `k.Unmarshal` decodes into a
field of type `α`, by what the decoder does with it. -/
inductive Leaf (α : Type) where
  /-- The null value: the decoder leaves the field as it is. -/
  | null
  /-- A value that decodes to `v`. -/
  | value (v : α)
  /-- A value that does not decode into the field: the decoder reports `msg`;
  `written` is what it has put into the field by then, `none` when it
  leaves the field as it is. -/
  | mismatch (msg : String) (written : Option α)
  deriving DecidableEq, Repr

/-- The value of a document under one of the keys `server` and `ping`, whose
field is a struct with a single key of type `α`. -/
inductive Group (α : Type) where
  /-- The null value (`server:` with nothing after it). -/
  | null
  /-- A map; `leaf` is the value under the struct's key, `none` when the map
  does not have the key. -/
  | map (leaf : Option (Leaf α))
  /-- A value that is neither null nor a map: decoding it into the struct
  reports `msg`. -/
  | mismatch (msg : String)
  deriving DecidableEq, Repr

/-- The content of one configuration source once parsed, and of the global
koanf instance `k`, at the keys of `Config`: `none` is a key the map does not
have.  The value under `machines` is a sequence, null or a scalar; a map under
`machines`, which koanf would merge key by key with a map of another layer,
is not covered. -/
structure Layer where
  machines : Option (Leaf (List Machine))
  server : Option (Group String)
  ping : Option (Group Bool)
  deriving DecidableEq, Repr

/-- The map with no key: `koanf.New`, and an empty YAML document. -/
def Layer.empty : Layer :=
  { machines := none, server := none, ping := none }

/-- The merge of koanf (`maps.Merge`) at one of the keys `server` and `ping`:
a key the incoming map lacks keeps its value; an incoming map is merged key by
key into an accumulated map, where the incoming value of the struct's key
replaces the accumulated one; in every other case the incoming value, null
included, replaces the accumulated value. -/
def mergeGroup {α : Type} (old incoming : Option (Group α)) : Option (Group α) :=
  match incoming with
  | none => old
  | some (.map leaf) =>
    match old with
    | some (.map oldLeaf) =>
      some (.map
        (match leaf with
          | some v => some v
          | none => oldLeaf))
    | _ => some (.map leaf)
  | some v => some v

/-- The merge `k.Load` performs (koanf `maps.Merge`) of an incoming map into
the accumulated one.  An incoming value of `machines`, which is not a map,
replaces the accumulated one as a whole. -/
def merge (k incoming : Layer) : Layer :=
  { machines :=
      match incoming.machines with
      | some v => some v
      | none => k.machines
    server := mergeGroup k.server incoming.server
    ping := mergeGroup k.ping incoming.ping }

/-- The map `structs.Provider(cfg, koanfTag)` reads from a `Config` struct:
every field is a key. -/
def structsProvider (cfg : Config) : Layer :=
  { machines := some (.value cfg.Machines)
    server := some (.map (some (.value cfg.Server.Listen)))
    ping := some (.map (some (.value cfg.Ping.Privileged))) }

/-- The struct `defaults` of `Load`. -/
def defaults : Config :=
  { Machines := [], Server := { Listen := ":7777" }, Ping := { Privileged := false } }

/-- The error of reading a provider: a file that does not exist
(`os.IsNotExist` holds), or any other failure with its message. -/
inductive LoadError where
  | notExist (msg : String)
  | other (msg : String)
  deriving DecidableEq, Repr

/-- The method `Error()` of a load error. -/
def LoadError.msg : LoadError → String
  | .notExist m => m
  | .other m => m

/-- The function `os.IsNotExist`. -/
def IsNotExist : LoadError → Bool
  | .notExist _ => true
  | .other _ => false

/-- What `Load` takes from the operating system and from libraries outside the
sources: `os.UserHomeDir` (directory and error), `filepath.Join`, reading a file
as `file.Provider(path)` does, `os.Getenv`, the YAML parser followed by the
reading of the keys of `Config`, the decoding of a machine sequence into a
receiver that already has machines (`decodeInto data old`, element by
element), and the text of the decoder's error for the reported messages. -/
structure World where
  UserHomeDir : String × Option String
  Join : List String → String
  ReadFile : String → Except LoadError String
  Getenv : String → String
  parseYAML : String → Except String Layer
  decodeInto : List Machine → List Machine → List Machine
  decodeError : List String → String

/-- The call `k.Load(provider, yaml.Parser())`: `bytes` is what the provider
reads.  Returns the new content of `k` and the error. -/
def koanfLoad (w : World) (k : Layer) (bytes : Except LoadError String) :
    Layer × Option LoadError :=
  match bytes with
  | .error e => (k, some e)
  | .ok b =>
    match w.parseYAML b with
    | .error m => (k, some (.other m))
    | .ok layer => (merge k layer, none)

/-- The decoding of the value under a key into a field holding `old`: the
field afterwards and the messages reported.  `into v old` is the field after
a value that decodes to `v`. -/
def decodeLeaf {α : Type} (into : α → α → α) : Option (Leaf α) → α → α × List String
  | none, old => (old, [])
  | some .null, old => (old, [])
  | some (.value v), old => (into v old, [])
  | some (.mismatch msg written), old => (written.getD old, [msg])

/-- The decoding of the value under `server` or `ping` into the single field
of the struct. -/
def decodeGroup {α : Type} : Option (Group α) → α → α × List String
  | none, old => (old, [])
  | some .null, old => (old, [])
  | some (.map leaf), old => decodeLeaf (fun v _ => v) leaf old
  | some (.mismatch msg), old => (old, [msg])

/-- The call `k.Unmarshal("", c)`: the receiver afterwards and the error.  The
decoder goes through the fields of `Config` in order, leaves a field without
a key or with a null value as it is, and goes on after a field that fails,
so the receiver is written also when an error is returned.  A machine
sequence is decoded into a fresh slice when the receiver has no machines (as
made by `NewConfig`), and into the receiver's elements otherwise. -/
def Unmarshal (w : World) (k : Layer) (c : Config) : Config × Option String :=
  let m := decodeLeaf (fun ms old => if old = [] then ms else w.decodeInto ms old)
    k.machines c.Machines
  let s := decodeGroup k.server c.Server.Listen
  let p := decodeGroup k.ping c.Ping.Privileged
  ({ Machines := m.1, Server := { Listen := s.1 }, Ping := { Privileged := p.1 } },
    if m.2 ++ s.2 ++ p.2 = [] then none else some (w.decodeError (m.2 ++ s.2 ++ p.2)))

/-- The slice `paths` of `Load`. -/
def paths (w : World) (home : String) : List String :=
  [ w.Join ["/etc", "woa", configFilename],
    w.Join [home, ".woa", configFilename],
    w.Join [".", configFilename] ]

/-- The loop of `Load` over `paths`: the content of `k` when the loop ends and
the error `Load` returns from inside it, if any. -/
def loadFiles (w : World) : List String → Layer → Layer × Option String
  | [], k => (k, none)
  | path :: rest, k =>
    match koanfLoad w k (w.ReadFile path) with
    | (k₁, some err) =>
      if !IsNotExist err then (k₁, some ("failed to load config file: " ++ err.msg))
      else loadFiles w rest k₁
    | (k₁, none) => loadFiles w rest k₁

/-- The state after a call of `Load`: the global koanf instance, the receiver,
and the returned error. -/
structure LoadResult where
  k : Layer
  c : Config
  err : Option String
  deriving DecidableEq, Repr

/-- The method `(c *Config) Load()`, on the global koanf instance `k`.  Reading
the `defaults` struct does not fail, so the first error `Load` can return is
that of `os.UserHomeDir`. -/
def Load (w : World) (k : Layer) (c : Config) : LoadResult :=
  let k₀ := merge k (structsProvider defaults)
  match w.UserHomeDir with
  | (_, some err) => { k := k₀, c := c, err := some ("failed to get home directory: " ++ err) }
  | (home, none) =>
    match loadFiles w (paths w home) k₀ with
    | (k₁, some err) => { k := k₁, c := c, err := some err }
    | (k₁, none) =>
      match koanfLoad w k₁ (.ok (w.Getenv "WOA_CONFIG")) with
      | (k₂, some err) =>
        { k := k₂, c := c, err := some ("failed to load config from WOA_CONFIG: " ++ err.msg) }
      | (k₂, none) =>
        match Unmarshal w k₂ c with
        | (c₁, some err) =>
          { k := k₂, c := c₁, err := some ("failed to unmarshal config: " ++ err) }
        | (c₁, none) => { k := k₂, c := c₁, err := none }

/-! ## Specification-side notions -/

/-- The value of a key in the last layer, in list order, that defines it. -/
def lastDefined {α : Type} (key : Layer → Option α) : List Layer → Option α
  | [] => none
  | l :: rest =>
    match lastDefined key rest with
    | some v => some v
    | none => key l

/-- The first of two optional values that is present. -/
def firstSome {α : Type} (a b : Option α) : Option α :=
  match a with
  | some v => some v
  | none => b

/-- The value a layer defines for the key path `server.listen`: `server` is a
map whose key `listen` has a value of the field's type. -/
def Layer.listen (l : Layer) : Option String :=
  match l.server with
  | some (.map (some (.value v))) => some v
  | _ => none

/-- The value a layer defines for the key path `ping.privileged`. -/
def Layer.privileged (l : Layer) : Option Bool :=
  match l.ping with
  | some (.map (some (.value v))) => some v
  | _ => none

/-- The machine list a layer defines: `machines` has a value that decodes. -/
def Layer.machineList (l : Layer) : Option (List Machine) :=
  match l.machines with
  | some (.value ms) => some ms
  | _ => none

/-- The machine list the `machines` value of a layer leaves in a fresh
`Config`, for a layer that has the key: the decoded list, no machine for the
null value, and what the decoder has written for a value that fails. -/
def Layer.freshMachines (l : Layer) : Option (List Machine) :=
  match l.machines with
  | none => none
  | some .null => some []
  | some (.value ms) => some ms
  | some (.mismatch _ written) => some (written.getD [])

/-- A value under `server` or `ping` of the expected shape: no key, or a map
without the struct's key or with a value of the field's type under it. -/
def Group.wellTyped {α : Type} : Option (Group α) → Bool
  | none => true
  | some (.map none) => true
  | some (.map (some (.value _))) => true
  | _ => false

/-- A layer of the expected shape at every key it has: `machines` decodes,
`server` and `ping` are maps, `listen` and `privileged` have values of the
field's type.  No key is null and none fails to decode. -/
def Layer.wellTyped (l : Layer) : Bool :=
  (match l.machines with
    | none => true
    | some (.value _) => true
    | _ => false) && Group.wellTyped l.server && Group.wellTyped l.ping

/-- The layer a config file contributes to `Load`: the empty layer when the
file does not exist, its parsed content when it is read and parses, and `none`
when it is read with another error or fails to parse. -/
def fileLayer (w : World) (path : String) : Option Layer :=
  match w.ReadFile path with
  | .error (.notExist _) => some Layer.empty
  | .error (.other _) => none
  | .ok b =>
    match w.parseYAML b with
    | .ok layer => some layer
    | .error _ => none

/-- A name `strconv.Quote` renders unchanged between the quotes: every
character is printable and is neither the double quote nor the backslash. -/
def plainName (tables : Char → Bool) (name : String) : Prop :=
  ∀ c ∈ name.data, IsPrint tables c = true ∧ c ≠ dquote ∧ c ≠ backslash

instance (tables : Char → Bool) (name : String) : Decidable (plainName tables name) := by
  unfold plainName
  infer_instance

/-- The world in which the file at `path` exists with content `b`. -/
def World.withFile (w : World) (path b : String) : World :=
  { w with ReadFile := fun q => if q = path then .ok b else w.ReadFile q }

/-! ## Example data -/

/-- A world for examples: the home directory is `/home/u`, paths are joined
with a slash, a file is its path paired with its content, documents are
looked up in a table of parsed layers.  `Join` drops the empty and the `.`
elements, as `filepath.Join` does for the three paths of `Load`. -/
def exampleWorld (files : List (String × String)) (env : String)
    (docs : List (String × Layer)) : World :=
  { UserHomeDir := ("/home/u", none)
    Join := fun elems => "/".intercalate (elems.filter (fun e => e ≠ "" ∧ e ≠ "."))
    ReadFile := fun path =>
      match files.lookup path with
      | some b => .ok b
      | none => .error (.notExist ("open " ++ path ++ ": no such file or directory"))
    Getenv := fun name => if name = "WOA_CONFIG" then env else ""
    parseYAML := fun b =>
      if b = "" then .ok Layer.empty
      else
        match docs.lookup b with
        | some layer => .ok layer
        | none => .error "yaml: unmarshal errors"
    decodeInto := fun ms _ => ms
    decodeError := fun msgs => "
".intercalate msgs }

/-- A configuration for examples: three machines, two of them with the same
name up to case. -/
def bedroomConfig : Config :=
  { Machines :=
      [ ⟨"Office", "0a:0b:0c:0d:0e:0f", none, none⟩,
        ⟨"Bedroom-PC", "01:02:03:04:05:06", none, none⟩,
        ⟨"BEDROOM-pc", "11:12:13:14:15:16", none, none⟩ ]
    Server := ⟨":7777"⟩
    Ping := ⟨false⟩ }

/-- A configuration for examples: one machine with an HTTP sub-record and a
valid MAC text. -/
def httpConfig : Config :=
  { Machines :=
      [ ⟨"nas", "01:02:03:04:05:06", some ⟨"http://nas.local/wake", "POST", "on"⟩, none⟩ ]
    Server := ⟨":7777"⟩
    Ping := ⟨false⟩ }

/-- The YAML document that sets `server.listen`. -/
def listenDoc (addr : String) : String := "server:\n  listen: \"" ++ addr ++ "\""

/-- The layer of `listenDoc addr`. -/
def listenLayer (addr : String) : Layer :=
  { machines := none, server := some (.map (some (.value addr))), ping := none }

/-- The layer of a document that only defines `machines`. -/
def machinesLayer (ms : List Machine) : Layer :=
  { machines := some (.value ms), server := none, ping := none }

/-- The layer of the document `server:`, whose key `server` is null. -/
def nullServerLayer : Layer :=
  { machines := none, server := some .null, ping := none }

/-- The layer of the document `ping: yes please`, whose key `ping` is a
string and not a map. -/
def badPingLayer : Layer :=
  { machines := none
    server := none
    ping := some (.mismatch "'ping' expected a map, got 'string'") }

/-- The documents of the examples with their layers; a text outside the table
fails to parse. -/
def exampleDocs : List (String × Layer) :=
  [ (listenDoc ":1111", listenLayer ":1111"),
    (listenDoc ":2222", listenLayer ":2222"),
    (listenDoc ":9999", listenLayer ":9999"),
    ("machines:\n  - name: a\n    mac: 01:02:03:04:05:06\n  - name: b\n    mac: 11:12:13:14:15:16",
      machinesLayer [⟨"a", "01:02:03:04:05:06", none, none⟩,
        ⟨"b", "11:12:13:14:15:16", none, none⟩]),
    ("machines:\n  - name: c\n    mac: 21:22:23:24:25:26",
      machinesLayer [⟨"c", "21:22:23:24:25:26", none, none⟩]),
    ("machines:\n  - name: d", machinesLayer [⟨"d", "", none, none⟩]),
    ("server:", nullServerLayer),
    ("ping: yes please", badPingLayer) ]

/-! ## Lemmas on the name lookup -/

theorem findMachine_eq_some (P : Platform) (name : String) (ms : List Machine) (m : Machine)
    (h : findMachine P name ms = some m) :
    ∃ pre post, ms = pre ++ m :: post ∧
      (∀ x ∈ pre, P.EqualFold x.Name name = false) ∧ P.EqualFold m.Name name = true := by
  induction ms with
  | nil => simp [findMachine] at h
  | cons a rest ih =>
    unfold findMachine at h
    by_cases ha : P.EqualFold a.Name name = true
    · rw [if_pos ha] at h
      cases h
      exact ⟨[], rest, rfl, by simp, ha⟩
    · rw [if_neg ha] at h
      obtain ⟨pre, post, hms, hpre, hm⟩ := ih h
      refine ⟨a :: pre, post, by simp [hms], ?_, hm⟩
      intro x hx
      rcases List.mem_cons.mp hx with rfl | hx
      · simpa using ha
      · exact hpre x hx

theorem findMachine_eq_none (P : Platform) (name : String) (ms : List Machine) :
    findMachine P name ms = none ↔ ∀ m ∈ ms, P.EqualFold m.Name name = false := by
  induction ms with
  | nil => simp [findMachine]
  | cons a rest ih =>
    unfold findMachine
    by_cases ha : P.EqualFold a.Name name = true
    · simp [ha]
    · simp [ha, ih]

theorem flatten_map_singleton (f : Char → List Char) (l : List Char)
    (h : ∀ c ∈ l, f c = [c]) : (l.map f).flatten = l := by
  induction l with
  | nil => rfl
  | cons a rest ih =>
    have ha : f a = [a] := h a (List.mem_cons_self a rest)
    have hr : (rest.map f).flatten = rest := ih (fun c hc => h c (List.mem_cons_of_mem a hc))
    simp [ha, hr]

theorem Quote_plain (tables : Char → Bool) (name : String) (h : plainName tables name) :
    (Quote tables name).data = dquote :: name.data ++ [dquote] := by
  have hflat : (name.data.map (appendEscapedRune tables)).flatten = name.data := by
    apply flatten_map_singleton
    intro c hc
    obtain ⟨hp, hq, hb⟩ := h c hc
    simp [appendEscapedRune, hp, hq, hb]
  simp [Quote, hflat]

/-! ## Lemmas on dispatch -/

theorem Run_cases (P : Platform) (cfg : Config) (flags : Flags) :
    (∃ e, retrieveMac P cfg flags = .error e ∧ Run P cfg flags = ([], e)) ∨
    (∃ mac err, retrieveMac P cfg flags = .ok mac ∧
      Run P cfg flags = ([Effect.udpBroadcast (NewMagicPacket mac)], Exit.checkErr err)) ∨
    (∃ mac, retrieveMac P cfg flags = .ok mac ∧
      Run P cfg flags = ([Effect.udpBroadcast (NewMagicPacket mac)], Exit.done)) := by
  cases hr : retrieveMac P cfg flags with
  | error e => exact Or.inl ⟨e, rfl, by simp [Run, hr]⟩
  | ok mac =>
    cases hb : P.Broadcast (NewMagicPacket mac) with
    | none => exact Or.inr (Or.inr ⟨mac, rfl, by simp [Run, hr, hb]⟩)
    | some err => exact Or.inr (Or.inl ⟨mac, err, rfl, by simp [Run, hr, hb]⟩)

/-! ## Lemmas on configuration loading -/

theorem merge_empty (k : Layer) : merge k Layer.empty = k := by
  cases k
  rfl

/-- One round of the loop of `Load` for a file that contributes a layer. -/
theorem loadFiles_cons_of_fileLayer (w : World) (path : String) (rest : List String)
    (k layer : Layer) (h : fileLayer w path = some layer) :
    loadFiles w (path :: rest) k = loadFiles w rest (merge k layer) := by
  unfold fileLayer at h
  cases hr : w.ReadFile path with
  | error e =>
    cases e with
    | notExist m =>
      simp only [hr] at h
      cases h
      simp [loadFiles, koanfLoad, hr, IsNotExist, merge_empty]
    | other m => simp [hr] at h
  | ok b =>
    cases hp : w.parseYAML b with
    | error m => simp [hr, hp] at h
    | ok l =>
      simp only [hr, hp] at h
      cases h
      simp [loadFiles, koanfLoad, hr, hp]

theorem loadFiles_of_layers (w : World) (ps : List String) (ls : List Layer) (k : Layer)
    (h : List.Forall₂ (fun path layer => fileLayer w path = some layer) ps ls) :
    loadFiles w ps k = (ls.foldl merge k, none) := by
  induction h generalizing k with
  | nil => rfl
  | cons hhead _ ih => rw [loadFiles_cons_of_fileLayer w _ _ k _ hhead, ih, List.foldl_cons]

theorem loadFiles_malformed (w : World) (pre : List String) (ls : List Layer) (path : String)
    (post : List String) (k : Layer) (b m : String)
    (h : List.Forall₂ (fun q layer => fileLayer w q = some layer) pre ls)
    (hr : w.ReadFile path = .ok b) (hp : w.parseYAML b = .error m) :
    loadFiles w (pre ++ path :: post) k
      = (ls.foldl merge k, some ("failed to load config file: " ++ m)) := by
  induction h generalizing k with
  | nil => simp [loadFiles, koanfLoad, hr, hp, IsNotExist, LoadError.msg]
  | cons hhead _ ih =>
    rw [List.cons_append, loadFiles_cons_of_fileLayer w _ _ k _ hhead, ih, List.foldl_cons]

theorem loadFiles_withFile (w : World) (path b m : String)
    (hmiss : w.ReadFile path = .error (.notExist m)) (hb : w.parseYAML b = .ok Layer.empty)
    (ps : List String) (k : Layer) :
    loadFiles (w.withFile path b) ps k = loadFiles w ps k := by
  induction ps generalizing k with
  | nil => rfl
  | cons q rest ih =>
    by_cases hq : q = path
    · subst hq
      have h1 : fileLayer (w.withFile q b) q = some Layer.empty := by
        simp [fileLayer, World.withFile, hb]
      have h2 : fileLayer w q = some Layer.empty := by
        simp [fileLayer, hmiss]
      rw [loadFiles_cons_of_fileLayer _ _ _ _ _ h1, loadFiles_cons_of_fileLayer _ _ _ _ _ h2, ih]
    · unfold loadFiles
      have hread : (w.withFile path b).ReadFile q = w.ReadFile q := by
        simp [World.withFile, hq]
      have hload : ∀ src, koanfLoad (w.withFile path b) k src = koanfLoad w k src := fun _ => rfl
      rw [hread, hload]
      rcases koanfLoad w k (w.ReadFile q) with ⟨k₁, _ | err⟩
      · exact ih k₁
      · simp only [ih]

/-- The result of `Load` when the home directory is known, every file
contributes a layer and the environment document parses: the layers are
merged in order and the result is decoded into the receiver. -/
theorem Load_of_layers (w : World) (k : Layer) (c : Config) (home : String)
    (sys usr cwd env : Layer) (hhome : w.UserHomeDir = (home, none))
    (hsys : fileLayer w (w.Join ["/etc", "woa", configFilename]) = some sys)
    (husr : fileLayer w (w.Join [home, ".woa", configFilename]) = some usr)
    (hcwd : fileLayer w (w.Join [".", configFilename]) = some cwd)
    (henv : w.parseYAML (w.Getenv "WOA_CONFIG") = .ok env) :
    Load w k c =
      { k := [sys, usr, cwd, env].foldl merge (merge k (structsProvider defaults))
        c := (Unmarshal w
          ([sys, usr, cwd, env].foldl merge (merge k (structsProvider defaults))) c).1
        err := (Unmarshal w
          ([sys, usr, cwd, env].foldl merge (merge k (structsProvider defaults))) c).2.map
            (fun e => "failed to unmarshal config: " ++ e) } := by
  have hfiles := loadFiles_of_layers w (paths w home) [sys, usr, cwd]
    (merge k (structsProvider defaults))
    (List.Forall₂.cons hsys (List.Forall₂.cons husr (List.Forall₂.cons hcwd List.Forall₂.nil)))
  simp only [Load, hhome, hfiles, koanfLoad, henv, List.foldl_cons, List.foldl_nil]
  rcases Unmarshal w (merge (merge (merge (merge (merge k (structsProvider defaults)) sys) usr)
    cwd) env) c with ⟨c₁, _ | e⟩ <;> rfl

/-- The value of a key after the layers `ls` are merged into `k`, for a key
whose value after one merge is the incoming one when the incoming layer
defines it and the accumulated one otherwise. -/
theorem foldl_merge_lastDefined {α : Type} (key : Layer → Option α) (good : Layer → Prop)
    (hstep : ∀ k l, good l → key (merge k l) = firstSome (key l) (key k))
    (ls : List Layer) (k : Layer) (hls : ∀ l ∈ ls, good l) :
    key (ls.foldl merge k) = lastDefined key (k :: ls) := by
  induction ls generalizing k with
  | nil => simp [lastDefined]
  | cons l rest ih =>
    have hrest : ∀ x ∈ rest, good x := fun x hx => hls x (List.mem_cons_of_mem l hx)
    rw [List.foldl_cons, ih (merge k l) hrest]
    simp only [lastDefined, hstep k l (hls l (List.mem_cons_self l rest)), firstSome]
    cases lastDefined key rest <;> cases key l <;> rfl

theorem lastDefined_cons {α : Type} (key : Layer → Option α) (l : Layer) (ls : List Layer) :
    lastDefined key (l :: ls) = firstSome (lastDefined key ls) (key l) := by
  simp only [lastDefined, firstSome]

theorem lastDefined_cons_some {α : Type} (key : Layer → Option α) (l : Layer)
    (ls : List Layer) (d : α) (h : key l = some d) :
    ∃ a, lastDefined key (l :: ls) = some a := by
  rw [lastDefined_cons, h]
  cases lastDefined key ls with
  | none => exact ⟨d, rfl⟩
  | some v => exact ⟨v, rfl⟩

theorem merge_listen (k l : Layer) (h : l.wellTyped = true) :
    (merge k l).listen = firstSome l.listen k.listen := by
  obtain ⟨lm, ls, lp⟩ := l
  obtain ⟨km, ks, kp⟩ := k
  simp only [Layer.wellTyped, Bool.and_eq_true] at h
  obtain ⟨⟨_, hs⟩, _⟩ := h
  rcases ls with _ | (_ | (_ | (_ | v | _)) | _) <;> simp [Group.wellTyped] at hs <;>
    rcases ks with _ | (_ | _ | _) <;> simp [merge, mergeGroup, Layer.listen, firstSome]

theorem merge_privileged (k l : Layer) (h : l.wellTyped = true) :
    (merge k l).privileged = firstSome l.privileged k.privileged := by
  obtain ⟨lm, ls, lp⟩ := l
  obtain ⟨km, ks, kp⟩ := k
  simp only [Layer.wellTyped, Bool.and_eq_true] at h
  obtain ⟨_, hp⟩ := h
  rcases lp with _ | (_ | (_ | (_ | v | _)) | _) <;> simp [Group.wellTyped] at hp <;>
    rcases kp with _ | (_ | _ | _) <;> simp [merge, mergeGroup, Layer.privileged, firstSome]

theorem merge_machineList (k l : Layer) (h : l.wellTyped = true) :
    (merge k l).machineList = firstSome l.machineList k.machineList := by
  obtain ⟨lm, ls, lp⟩ := l
  simp only [Layer.wellTyped, Bool.and_eq_true] at h
  obtain ⟨⟨hm, _⟩, _⟩ := h
  rcases lm with _ | (_ | v | _) <;> simp at hm <;> simp [merge, Layer.machineList, firstSome]

theorem merge_freshMachines (k l : Layer) :
    (merge k l).freshMachines = firstSome l.freshMachines k.freshMachines := by
  obtain ⟨lm, ls, lp⟩ := l
  rcases lm with _ | (_ | v | _) <;> simp [merge, Layer.freshMachines, firstSome]

theorem listen_eq_some (l : Layer) (v : String) (h : l.listen = some v) :
    l.server = some (.map (some (.value v))) := by
  obtain ⟨lm, ls, lp⟩ := l
  rcases ls with _ | (_ | (_ | (_ | x | _)) | _) <;> simp [Layer.listen] at h
  simp [h]

theorem privileged_eq_some (l : Layer) (v : Bool) (h : l.privileged = some v) :
    l.ping = some (.map (some (.value v))) := by
  obtain ⟨lm, ls, lp⟩ := l
  rcases lp with _ | (_ | (_ | (_ | x | _)) | _) <;> simp [Layer.privileged] at h
  simp [h]

theorem machineList_eq_some (l : Layer) (v : List Machine) (h : l.machineList = some v) :
    l.machines = some (.value v) := by
  obtain ⟨lm, ls, lp⟩ := l
  rcases lm with _ | (_ | x | _) <;> simp [Layer.machineList] at h
  simp [h]

/-- The decoding of a koanf content whose three keys have values of the
fields' types: no error, every field is written. -/
theorem Unmarshal_of_values (w : World) (k : Layer) (c : Config) (ms : List Machine)
    (a : String) (b : Bool) (hm : k.machines = some (.value ms))
    (hs : k.server = some (.map (some (.value a))))
    (hp : k.ping = some (.map (some (.value b)))) :
    Unmarshal w k c =
      ({ Machines := if c.Machines = [] then ms else w.decodeInto ms c.Machines
         Server := { Listen := a }
         Ping := { Privileged := b } }, none) := by
  simp [Unmarshal, decodeLeaf, decodeGroup, hm, hs, hp]

theorem Unmarshal_fresh_machines (w : World) (k : Layer) :
    (Unmarshal w k NewConfig).1.Machines = k.freshMachines.getD [] := by
  obtain ⟨km, ks, kp⟩ := k
  rcases km with _ | (_ | x | _) <;>
    simp [Unmarshal, decodeLeaf, NewConfig, Layer.freshMachines]

/-- The koanf content once the defaults and four layers of the expected
shape are merged: each key has the value of the last layer that defines it. -/
theorem merged_keys (k sys usr cwd env : Layer)
    (hw : sys.wellTyped = true ∧ usr.wellTyped = true ∧ cwd.wellTyped = true ∧
      env.wellTyped = true) :
    ([sys, usr, cwd, env].foldl merge (merge k (structsProvider defaults))).listen
      = lastDefined Layer.listen [structsProvider defaults, sys, usr, cwd, env] ∧
    ([sys, usr, cwd, env].foldl merge (merge k (structsProvider defaults))).privileged
      = lastDefined Layer.privileged [structsProvider defaults, sys, usr, cwd, env] ∧
    ([sys, usr, cwd, env].foldl merge (merge k (structsProvider defaults))).machineList
      = lastDefined Layer.machineList [structsProvider defaults, sys, usr, cwd, env] := by
  have hls : ∀ l ∈ [sys, usr, cwd, env], l.wellTyped = true := by
    intro l hl
    simp only [List.mem_cons, List.mem_singleton, List.not_mem_nil, or_false] at hl
    rcases hl with rfl | rfl | rfl | rfl
    · exact hw.1
    · exact hw.2.1
    · exact hw.2.2.1
    · exact hw.2.2.2
  have hd : (structsProvider defaults).wellTyped = true := rfl
  refine ⟨?_, ?_, ?_⟩
  · rw [foldl_merge_lastDefined Layer.listen (fun l => l.wellTyped = true) merge_listen _ _ hls]
    have h0 := merge_listen k (structsProvider defaults) hd
    simp only [lastDefined] at h0 ⊢
    rw [h0]
    rfl
  · rw [foldl_merge_lastDefined Layer.privileged (fun l => l.wellTyped = true)
      merge_privileged _ _ hls]
    have h0 := merge_privileged k (structsProvider defaults) hd
    simp only [lastDefined] at h0 ⊢
    rw [h0]
    rfl
  · rw [foldl_merge_lastDefined Layer.machineList (fun l => l.wellTyped = true)
      merge_machineList _ _ hls]
    have h0 := merge_machineList k (structsProvider defaults) hd
    simp only [lastDefined] at h0 ⊢
    rw [h0]
    rfl

/-! ## Theorems -/

/-- C1: for every machine, `WakeMethod` returns `WakeMethodHTTP` exactly when
the HTTP sub-record is present and `WakeMethodUDP` otherwise; the result does
not depend on the fields `Name`, `Mac` and `IP`. -/
theorem C1_WakeMethod_http_iff_present (m : Machine) :
    (m.WakeMethod = WakeMethod.WakeMethodHTTP ↔ m.HTTP ≠ none) ∧
    (m.WakeMethod = WakeMethod.WakeMethodUDP ↔ m.HTTP = none) ∧
    (∀ (name mac : String) (ip : Option String),
      ({ Name := name, Mac := mac, HTTP := m.HTTP, IP := ip } : Machine).WakeMethod
        = m.WakeMethod) := by
  cases hH : m.HTTP <;> simp [Machine.WakeMethod, hH]

/-- C2: when some machine's name equals the query ignoring case,
`getMachineByName` returns a nil error and the first machine, in list order,
whose name equals the query ignoring case. -/
theorem C2_getMachineByName_first_match (P : Platform) (cfg : Config) (name : String)
    (h : ∃ m ∈ cfg.Machines, P.EqualFold m.Name name = true) :
    ∃ pre m post, cfg.Machines = pre ++ m :: post ∧
      (∀ x ∈ pre, P.EqualFold x.Name name = false) ∧
      P.EqualFold m.Name name = true ∧
      getMachineByName P cfg name = (some m, none) := by
  cases hf : findMachine P name cfg.Machines with
  | none =>
    obtain ⟨m, hm, hfold⟩ := h
    have := (findMachine_eq_none P name cfg.Machines).mp hf m hm
    rw [hfold] at this
    cases this
  | some m =>
    obtain ⟨pre, post, hms, hpre, hm⟩ := findMachine_eq_some P name cfg.Machines m hf
    exact ⟨pre, m, post, hms, hpre, hm, by simp [getMachineByName, hf]⟩

/-- Witness of C2: a machine named `Bedroom-PC` is returned for the query
`bedroom-pc`, and of two machines of that name the earlier one is returned. -/
theorem C2_getMachineByName_first_match_witness :
    (∃ pre m post,
      bedroomConfig.Machines = pre ++ m :: post ∧
      (∀ x ∈ pre, asciiPlatform.EqualFold x.Name "bedroom-pc" = false) ∧
      asciiPlatform.EqualFold m.Name "bedroom-pc" = true ∧
      getMachineByName asciiPlatform
        bedroomConfig "bedroom-pc" = (some m, none)) ∧
    getMachineByName asciiPlatform
        bedroomConfig "bedroom-pc"
      = (some ⟨"Bedroom-PC", "01:02:03:04:05:06", none, none⟩, none) :=
  ⟨C2_getMachineByName_first_match asciiPlatform bedroomConfig "bedroom-pc"
      ⟨⟨"Bedroom-PC", "01:02:03:04:05:06", none, none⟩, by decide, by decide⟩,
    by decide⟩

/-- C3 as stated fails: for the requested name `a"b`, absent from an empty
machine list, the error message is `machine with name "a\"b" not found`,
which does not contain the requested name. -/
theorem C3_message_does_not_contain_name :
    getMachineByName asciiPlatform NewConfig ⟨['a', dquote, 'b']⟩
      = (none, some ("machine with name " ++ ⟨[dquote, 'a', backslash, dquote, 'b', dquote]⟩
          ++ " not found")) ∧
    ¬ (['a', dquote, 'b'] <:+:
        ("machine with name " ++ (⟨[dquote, 'a', backslash, dquote, 'b', dquote]⟩ : String)
          ++ " not found").data) := by
  constructor
  · decide
  · decide

/-- C3, amended: when no machine's name equals the query ignoring case,
`getMachineByName` returns a nil machine and the error
`machine with name <q> not found`, where `<q>` is the requested name as the
verb `%q` renders it; the message contains the requested name itself when the
name is made of printable characters other than the double quote and the
backslash.  On every input the result is not a nil machine with a nil error. -/
theorem C3_getMachineByName_not_found (P : Platform) (cfg : Config) (name : String) :
    ((∀ m ∈ cfg.Machines, P.EqualFold m.Name name = false) →
      getMachineByName P cfg name
        = (none, some ("machine with name " ++ Quote P.printTables name ++ " not found")) ∧
      (Quote P.printTables name).data <:+:
        ("machine with name " ++ Quote P.printTables name ++ " not found").data ∧
      (plainName P.printTables name →
        name.data <:+:
          ("machine with name " ++ Quote P.printTables name ++ " not found").data)) ∧
    getMachineByName P cfg name ≠ (none, none) := by
  constructor
  · intro h
    have hf := (findMachine_eq_none P name cfg.Machines).mpr h
    refine ⟨by simp [getMachineByName, hf], ?_, ?_⟩
    · exact ⟨"machine with name ".data, " not found".data, by simp [String.data_append]⟩
    · intro hp
      refine ⟨"machine with name ".data ++ [dquote], [dquote] ++ " not found".data, ?_⟩
      simp [String.data_append, Quote_plain P.printTables name hp]
  · unfold getMachineByName
    cases findMachine P name cfg.Machines <;> simp

/-- Witness of C3: the query `nonexistent` against a list without such a
machine yields the error `machine with name "nonexistent" not found`. -/
theorem C3_getMachineByName_not_found_witness :
    getMachineByName asciiPlatform
        bedroomConfig "nonexistent"
      = (none, some ("machine with name " ++ Quote asciiPlatform.printTables "nonexistent"
          ++ " not found")) ∧
    "nonexistent".data <:+:
      ("machine with name " ++ Quote asciiPlatform.printTables "nonexistent"
        ++ " not found").data :=
  have h := (C3_getMachineByName_not_found asciiPlatform bedroomConfig "nonexistent").1 (by decide)
  ⟨h.1, h.2.2 (by decide)⟩

/-- C4: the code at the invocation `send --name nas`, where the machine `nas`
has an HTTP sub-record, so that its wake method is HTTP.  The claim asks for
the configured HTTP request and no magic packet; the command broadcasts the
magic packet of the machine's MAC and issues no HTTP request. -/
theorem C4_http_machine_gets_magic_packet :
    (∃ m, getMachineByName asciiPlatform httpConfig "nas" = (some m, none) ∧
      m.WakeMethod = WakeMethod.WakeMethodHTTP) ∧
    execute asciiPlatform httpConfig ⟨none, some "nas"⟩
      = ([Effect.udpBroadcast (NewMagicPacket [1, 2, 3, 4, 5, 6])], Exit.done) ∧
    Effect.httpRequest "POST" "http://nas.local/wake" "on"
      ∉ (execute asciiPlatform httpConfig ⟨none, some "nas"⟩).1 := by
  refine ⟨⟨⟨"nas", "01:02:03:04:05:06", some ⟨"http://nas.local/wake", "POST", "on"⟩, none⟩,
    by decide, by decide⟩, by decide, by decide⟩

/-- C5 as stated fails: the well-formed 8-octet text
`01:23:45:67:89:ab:cd:ef` is accepted by `getMac` and by the `--mac` branch,
with a nil error and an address of length 8. -/
theorem C5_eight_octets_accepted :
    getMac asciiPlatform ⟨"nas", "01:23:45:67:89:ab:cd:ef", none, none⟩
      = ([0x01, 0x23, 0x45, 0x67, 0x89, 0xab, 0xcd, 0xef], none) ∧
    retrieveMac asciiPlatform NewConfig ⟨some "01:23:45:67:89:ab:cd:ef", none⟩
      = .ok [0x01, 0x23, 0x45, 0x67, 0x89, 0xab, 0xcd, 0xef] ∧
    (getMac asciiPlatform ⟨"nas", "01:23:45:67:89:ab:cd:ef", none, none⟩).1.length = 8 := by
  refine ⟨by decide, by decide, by decide⟩

/-- C5, amended: address resolution is `net.ParseMAC` with no check of the
length.  For every `net.ParseMAC`, `getMac` and the `--mac` branch succeed
exactly when it accepts the text and then yield the address it returned;
they return an error exactly when it rejects the text (`getMac` with the nil
address and the message `failed to parse MAC address: <err>`, the `--mac`
branch by `cobra.CheckErr` on the error).  An address of 6 octets is one
outcome among those `net.ParseMAC` has. -/
theorem C5_address_resolution (P : Platform) (cfg : Config) (machine : Machine)
    (value : String) (name : Option String) :
    ((getMac P machine).2 = none ↔ (P.ParseMAC machine.Mac).2 = none) ∧
    ((P.ParseMAC machine.Mac).2 = none →
      getMac P machine = ((P.ParseMAC machine.Mac).1, none)) ∧
    (∀ err, (P.ParseMAC machine.Mac).2 = some err →
      getMac P machine = ([], some ("failed to parse MAC address: " ++ err))) ∧
    ((P.ParseMAC value).2 = none →
      retrieveMac P cfg ⟨some value, name⟩ = .ok (P.ParseMAC value).1) ∧
    (∀ err, (P.ParseMAC value).2 = some err →
      retrieveMac P cfg ⟨some value, name⟩ = .error (Exit.checkErr err)) ∧
    (∀ mac, retrieveMac P cfg ⟨some value, name⟩ = .ok mac ↔
      P.ParseMAC value = (mac, none)) := by
  refine ⟨?_, ?_, ?_, ?_, ?_, ?_⟩
  · rcases hp : P.ParseMAC machine.Mac with ⟨mac, _ | err⟩ <;> simp [getMac, hp]
  · intro h
    rcases hp : P.ParseMAC machine.Mac with ⟨mac, _ | err⟩
    · simp [getMac, hp]
    · simp [hp] at h
  · intro err h
    rcases hp : P.ParseMAC machine.Mac with ⟨mac, _ | err₁⟩
    · simp [hp] at h
    · simp only [hp, Option.some.injEq] at h
      subst h
      simp [getMac, hp]
  · intro h
    rcases hp : P.ParseMAC value with ⟨mac, _ | err⟩
    · simp [retrieveMac, hp]
    · simp [hp] at h
  · intro err h
    rcases hp : P.ParseMAC value with ⟨mac, _ | err₁⟩
    · simp [hp] at h
    · simp only [hp, Option.some.injEq] at h
      subst h
      simp [retrieveMac, hp]
  · intro mac
    rcases hp : P.ParseMAC value with ⟨mac₁, _ | err⟩ <;> simp [retrieveMac, hp]

/-- Witness of C5: `01:02:03:04:05:06` resolves to the 6 octets
`01 02 03 04 05 06` on both paths, and the 5-octet text `01:02:03:04:05` is
rejected on both. -/
theorem C5_address_resolution_witness :
    getMac asciiPlatform ⟨"pc", "01:02:03:04:05:06", none, none⟩
      = ((asciiPlatform.ParseMAC "01:02:03:04:05:06").1, none) ∧
    retrieveMac asciiPlatform NewConfig ⟨some "01:02:03:04:05:06", none⟩
      = .ok (asciiPlatform.ParseMAC "01:02:03:04:05:06").1 ∧
    (asciiPlatform.ParseMAC "01:02:03:04:05:06").1 = [1, 2, 3, 4, 5, 6] ∧
    getMac asciiPlatform ⟨"pc", "01:02:03:04:05", none, none⟩
      = ([], some ("failed to parse MAC address: "
          ++ AddrError "invalid MAC address" "01:02:03:04:05")) ∧
    retrieveMac asciiPlatform NewConfig ⟨some "01:02:03:04:05", none⟩
      = .error (Exit.checkErr (AddrError "invalid MAC address" "01:02:03:04:05")) :=
  have h := C5_address_resolution asciiPlatform NewConfig
    ⟨"pc", "01:02:03:04:05:06", none, none⟩ "01:02:03:04:05:06" none
  have h5 := C5_address_resolution asciiPlatform NewConfig
    ⟨"pc", "01:02:03:04:05", none, none⟩ "01:02:03:04:05" none
  ⟨h.2.1 (by decide), h.2.2.2.1 (by decide), by decide,
    h5.2.2.1 _ (by decide), h5.2.2.2.2.1 _ (by decide)⟩

/-- C6: the `PreRunE` check returns an error if and only if both flags were
supplied or neither was, and nil exactly when one and only one was supplied.
In the rejected cases the command ends with that error and no network
operation (`Run` is not called); once `PreRunE` has passed, `Run` does not
reach the default branch of its switch. -/
theorem C6_PreRunE_exactly_one_flag (P : Platform) (cfg : Config) (flags : Flags) :
    (PreRunE flags ≠ none ↔
      (flags.mac ≠ none ∧ flags.name ≠ none) ∨ (flags.mac = none ∧ flags.name = none)) ∧
    (PreRunE flags = none ↔
      (flags.mac ≠ none ∧ flags.name = none) ∨ (flags.mac = none ∧ flags.name ≠ none)) ∧
    (PreRunE flags ≠ none →
      execute P cfg flags
        = ([], Exit.preRunError "either --mac or --name must be specified")) ∧
    (PreRunE flags = none →
      execute P cfg flags = Run P cfg flags ∧
      ∀ msg, (Run P cfg flags).2 ≠ Exit.logFatal msg) := by
  obtain ⟨mac, name⟩ := flags
  cases mac with
  | none =>
    cases name with
    | none => simp [PreRunE, Flags.macChanged, Flags.nameChanged, execute]
    | some n =>
      refine ⟨by simp [PreRunE, Flags.macChanged, Flags.nameChanged],
        by simp [PreRunE, Flags.macChanged, Flags.nameChanged],
        by simp [PreRunE, Flags.macChanged, Flags.nameChanged], ?_⟩
      intro _
      refine ⟨by simp [PreRunE, Flags.macChanged, Flags.nameChanged, execute], ?_⟩
      intro msg
      rcases Run_cases P cfg ⟨none, some n⟩ with ⟨e, hr, hrun⟩ | ⟨hw, err, _, hrun⟩ | ⟨hw, _, hrun⟩
      · rw [hrun]
        intro heq
        cases heq
        revert hr
        simp only [retrieveMac, getMachineByName]
        cases hf : findMachine P n cfg.Machines with
        | none => simp
        | some machine =>
          rcases hg : getMac P machine with ⟨hw, _ | err⟩ <;> simp [hg]
      · rw [hrun]
        simp
      · rw [hrun]
        simp
  | some v =>
    cases name with
    | some n => simp [PreRunE, Flags.macChanged, Flags.nameChanged, execute]
    | none =>
      refine ⟨by simp [PreRunE, Flags.macChanged, Flags.nameChanged],
        by simp [PreRunE, Flags.macChanged, Flags.nameChanged],
        by simp [PreRunE, Flags.macChanged, Flags.nameChanged], ?_⟩
      intro _
      refine ⟨by simp [PreRunE, Flags.macChanged, Flags.nameChanged, execute], ?_⟩
      intro msg
      rcases Run_cases P cfg ⟨some v, none⟩ with ⟨e, hr, hrun⟩ | ⟨hw, err, _, hrun⟩ | ⟨hw, _, hrun⟩
      · rw [hrun]
        intro heq
        cases heq
        revert hr
        simp only [retrieveMac]
        rcases hp : P.ParseMAC v with ⟨hw, _ | err⟩ <;> simp [hp]
      · rw [hrun]
        simp
      · rw [hrun]
        simp

/-- Witness of C6: with both flags, and with neither, the command is rejected
before any network operation; with `--mac` alone the check passes and the
packet is broadcast. -/
theorem C6_PreRunE_exactly_one_flag_witness :
    execute asciiPlatform bedroomConfig ⟨some "01:02:03:04:05:06", some "Office"⟩
      = ([], Exit.preRunError "either --mac or --name must be specified") ∧
    execute asciiPlatform bedroomConfig ⟨none, none⟩
      = ([], Exit.preRunError "either --mac or --name must be specified") ∧
    execute asciiPlatform bedroomConfig ⟨some "01:02:03:04:05:06", none⟩
      = Run asciiPlatform bedroomConfig ⟨some "01:02:03:04:05:06", none⟩ ∧
    Run asciiPlatform bedroomConfig ⟨some "01:02:03:04:05:06", none⟩
      = ([Effect.udpBroadcast (NewMagicPacket [1, 2, 3, 4, 5, 6])], Exit.done) :=
  ⟨(C6_PreRunE_exactly_one_flag asciiPlatform bedroomConfig
      ⟨some "01:02:03:04:05:06", some "Office"⟩).2.2.1 (by decide),
    (C6_PreRunE_exactly_one_flag asciiPlatform bedroomConfig ⟨none, none⟩).2.2.1 (by decide),
    ((C6_PreRunE_exactly_one_flag asciiPlatform bedroomConfig
      ⟨some "01:02:03:04:05:06", none⟩).2.2.2 (by decide)).1,
    by decide⟩

/-- C7 as stated fails: with the system file setting `server.listen` to
`:1111`, no other file, and `WOA_CONFIG` holding the document `server:`
(the key `server` with a null value), the last layer that defines
`server.listen` is the system file and `Load` succeeds, but the resolved
listen address is the receiver's own value, the empty string of `NewConfig`,
and neither `:1111` nor the default `:7777`. -/
theorem C7_null_server_discards_earlier_value :
    fileLayer (exampleWorld [("/etc/woa/config.yaml", listenDoc ":1111")] "server:" exampleDocs)
        "/etc/woa/config.yaml" = some (listenLayer ":1111") ∧
    (exampleWorld [("/etc/woa/config.yaml", listenDoc ":1111")] "server:" exampleDocs).parseYAML
        "server:" = .ok nullServerLayer ∧
    nullServerLayer.listen = none ∧
    lastDefined Layer.listen
        [structsProvider defaults, listenLayer ":1111", Layer.empty, Layer.empty,
          nullServerLayer] = some ":1111" ∧
    (Load (exampleWorld [("/etc/woa/config.yaml", listenDoc ":1111")] "server:" exampleDocs)
        Layer.empty NewConfig).err = none ∧
    (Load (exampleWorld [("/etc/woa/config.yaml", listenDoc ":1111")] "server:" exampleDocs)
        Layer.empty NewConfig).c.Server.Listen = "" := by
  refine ⟨by decide, by decide, by decide, by decide, by decide, by decide⟩

/-- C7, amended: when the home directory is known, each of the three files
contributes a layer (the empty one when the file is missing) and the
`WOA_CONFIG` document parses, the koanf instance holds the layers merged in
the order defaults, `/etc/woa/config.yaml`, `~/.woa/config.yaml`,
`./config.yaml`, `WOA_CONFIG`.  If every layer has the expected shape (where
present, `server` and `ping` are maps, and `listen`, `privileged` and
`machines` have values of their fields' types), `Load` succeeds and each
scalar field of the resolved `Config` holds the value of the last layer in
that order that defines its key; when no file or environment layer defines a
key the default is kept (`:7777`, `false`, and no machines for a receiver
without machines).  A `WOA_CONFIG` document that gives `server` (or `ping`)
the null value discards the values of the earlier layers: the field keeps
the receiver's own value. -/
theorem C7_Load_last_layer_wins (w : World) (k : Layer) (c : Config) (home : String)
    (sys usr cwd env : Layer) (hhome : w.UserHomeDir = (home, none))
    (hsys : fileLayer w (w.Join ["/etc", "woa", "config.yaml"]) = some sys)
    (husr : fileLayer w (w.Join [home, ".woa", "config.yaml"]) = some usr)
    (hcwd : fileLayer w (w.Join [".", "config.yaml"]) = some cwd)
    (henv : w.parseYAML (w.Getenv "WOA_CONFIG") = .ok env) :
    (Load w k c).k = [structsProvider defaults, sys, usr, cwd, env].foldl merge k ∧
    (sys.wellTyped = true ∧ usr.wellTyped = true ∧ cwd.wellTyped = true ∧
        env.wellTyped = true →
      (Load w k c).err = none ∧
      some (Load w k c).c.Server.Listen
        = lastDefined Layer.listen [structsProvider defaults, sys, usr, cwd, env] ∧
      some (Load w k c).c.Ping.Privileged
        = lastDefined Layer.privileged [structsProvider defaults, sys, usr, cwd, env] ∧
      (lastDefined Layer.listen [sys, usr, cwd, env] = none →
        (Load w k c).c.Server.Listen = ":7777") ∧
      (lastDefined Layer.privileged [sys, usr, cwd, env] = none →
        (Load w k c).c.Ping.Privileged = false) ∧
      (c.Machines = [] → lastDefined Layer.machineList [sys, usr, cwd, env] = none →
        (Load w k c).c.Machines = [])) ∧
    (env.server = some .null → (Load w k c).c.Server.Listen = c.Server.Listen) ∧
    (env.ping = some .null → (Load w k c).c.Ping.Privileged = c.Ping.Privileged) := by
  rw [Load_of_layers w k c home sys usr cwd env hhome hsys husr hcwd henv]
  refine ⟨rfl, ?_, ?_, ?_⟩
  · intro hw
    obtain ⟨hl, hp, hm⟩ := merged_keys k sys usr cwd env hw
    have hl0 := lastDefined_cons_some Layer.listen (structsProvider defaults)
      [sys, usr, cwd, env] ":7777" rfl
    have hp0 := lastDefined_cons_some Layer.privileged (structsProvider defaults)
      [sys, usr, cwd, env] false rfl
    have hm0 := lastDefined_cons_some Layer.machineList (structsProvider defaults)
      [sys, usr, cwd, env] [] rfl
    obtain ⟨a, ha⟩ := hl0
    obtain ⟨b, hb⟩ := hp0
    obtain ⟨ms, hms⟩ := hm0
    have hU := Unmarshal_of_values w _ c ms a b
      (machineList_eq_some _ ms (hm.trans hms)) (listen_eq_some _ a (hl.trans ha))
      (privileged_eq_some _ b (hp.trans hb))
    simp only [hU, Option.map_none']
    refine ⟨trivial, ha.symm, hb.symm, ?_, ?_, ?_⟩
    · intro hnone
      have h1 : lastDefined Layer.listen [structsProvider defaults, sys, usr, cwd, env]
          = some ":7777" := by
        rw [lastDefined_cons, hnone]
        rfl
      rw [h1] at ha
      exact (Option.some.inj ha).symm
    · intro hnone
      have h1 : lastDefined Layer.privileged [structsProvider defaults, sys, usr, cwd, env]
          = some false := by
        rw [lastDefined_cons, hnone]
        rfl
      rw [h1] at hb
      exact (Option.some.inj hb).symm
    · intro hc hnone
      have h1 : lastDefined Layer.machineList [structsProvider defaults, sys, usr, cwd, env]
          = some [] := by
        rw [lastDefined_cons, hnone]
        rfl
      rw [h1] at hms
      simp [hc, (Option.some.inj hms).symm]
  · intro hnull
    simp [Unmarshal, merge, mergeGroup, hnull, decodeGroup]
  · intro hnull
    simp [Unmarshal, merge, mergeGroup, hnull, decodeGroup]

/-- Witness of C7: with the system file setting `:1111`, no user file and the
working-directory file setting `:2222`, the resolved listen address is
`:2222`; setting `WOA_CONFIG` to a document with `:9999` resolves to `:9999`. -/
theorem C7_Load_last_layer_wins_witness :
    (some (Load (exampleWorld [("/etc/woa/config.yaml", listenDoc ":1111"),
        ("config.yaml", listenDoc ":2222")] "" exampleDocs) Layer.empty NewConfig).c.Server.Listen
      = lastDefined Layer.listen
          [structsProvider defaults, listenLayer ":1111", Layer.empty, listenLayer ":2222",
            Layer.empty]) ∧
    (Load (exampleWorld [("/etc/woa/config.yaml", listenDoc ":1111"),
        ("config.yaml", listenDoc ":2222")] "" exampleDocs) Layer.empty NewConfig).c.Server.Listen
      = ":2222" ∧
    (some (Load (exampleWorld [("/etc/woa/config.yaml", listenDoc ":1111"),
        ("config.yaml", listenDoc ":2222")] (listenDoc ":9999") exampleDocs)
        Layer.empty NewConfig).c.Server.Listen
      = lastDefined Layer.listen
          [structsProvider defaults, listenLayer ":1111", Layer.empty, listenLayer ":2222",
            listenLayer ":9999"]) ∧
    (Load (exampleWorld [("/etc/woa/config.yaml", listenDoc ":1111"),
        ("config.yaml", listenDoc ":2222")] (listenDoc ":9999") exampleDocs)
        Layer.empty NewConfig).c.Server.Listen
      = ":9999" ∧
    (Load (exampleWorld [] "" exampleDocs) Layer.empty NewConfig).c.Server.Listen = ":7777" :=
  ⟨((C7_Load_last_layer_wins
      (exampleWorld [("/etc/woa/config.yaml", listenDoc ":1111"),
        ("config.yaml", listenDoc ":2222")] "" exampleDocs) Layer.empty NewConfig "/home/u"
      (listenLayer ":1111") Layer.empty (listenLayer ":2222") Layer.empty
      rfl (by decide) (by decide) (by decide) (by decide)).2.1 (by decide)).2.1,
    by decide,
    ((C7_Load_last_layer_wins
      (exampleWorld [("/etc/woa/config.yaml", listenDoc ":1111"),
        ("config.yaml", listenDoc ":2222")] (listenDoc ":9999") exampleDocs)
      Layer.empty NewConfig "/home/u"
      (listenLayer ":1111") Layer.empty (listenLayer ":2222") (listenLayer ":9999")
      rfl (by decide) (by decide) (by decide) (by decide)).2.1 (by decide)).2.1,
    by decide,
    ((C7_Load_last_layer_wins (exampleWorld [] "" exampleDocs) Layer.empty NewConfig "/home/u"
      Layer.empty Layer.empty Layer.empty Layer.empty
      rfl (by decide) (by decide) (by decide) (by decide)).2.1 (by decide)).2.2.2.1
      (by decide)⟩

/-- C8: a config file that does not exist never makes `Load` fail: the call
ends exactly as if the file existed with an empty document, and whenever
`Load` fails the home directory is unknown, or one of the three files is read
with another error or fails to parse, or the `WOA_CONFIG` document fails to
parse, or the final `k.Unmarshal` fails.  A file that exists but fails to
parse, the earlier files having contributed their layers, makes `Load` return
the error at once: the global koanf instance holds the defaults and the
earlier layers only, and the receiver is unchanged. -/
theorem C8_Load_missing_and_malformed_files (w : World) (k : Layer) (c : Config) :
    (∀ path b m, w.ReadFile path = .error (.notExist m) → w.parseYAML b = .ok Layer.empty →
      Load (w.withFile path b) k c = Load w k c) ∧
    ((Load w k c).err ≠ none →
      w.UserHomeDir.2 ≠ none ∨
      (∃ path ∈ paths w w.UserHomeDir.1, fileLayer w path = none) ∨
      (∃ m, w.parseYAML (w.Getenv "WOA_CONFIG") = .error m) ∨
      (∃ e, (Unmarshal w (Load w k c).k c).2 = some e ∧
        (Load w k c).err = some ("failed to unmarshal config: " ++ e))) ∧
    (∀ home pre path post ls b m, w.UserHomeDir = (home, none) →
      paths w home = pre ++ path :: post →
      List.Forall₂ (fun q layer => fileLayer w q = some layer) pre ls →
      w.ReadFile path = .ok b → w.parseYAML b = .error m →
      Load w k c =
        { k := ls.foldl merge (merge k (structsProvider defaults))
          c := c
          err := some ("failed to load config file: " ++ m) }) := by
  refine ⟨?_, ?_, ?_⟩
  · intro path b m hmiss hb
    have hfiles := loadFiles_withFile w path b m hmiss hb
    have hpaths : ∀ home, paths (w.withFile path b) home = paths w home := fun _ => rfl
    have hload : ∀ k₁ src, koanfLoad (w.withFile path b) k₁ src = koanfLoad w k₁ src :=
      fun _ _ => rfl
    have hhome : (w.withFile path b).UserHomeDir = w.UserHomeDir := rfl
    have henv : (w.withFile path b).Getenv = w.Getenv := rfl
    have hun : ∀ k₁, Unmarshal (w.withFile path b) k₁ c = Unmarshal w k₁ c := fun _ => rfl
    unfold Load
    simp only [hhome, hpaths, hfiles, hload, henv, hun]
  · intro herr
    rcases hh : w.UserHomeDir with ⟨home, _ | e⟩
    · right
      cases h1 : fileLayer w (w.Join ["/etc", "woa", configFilename]) with
      | none => exact Or.inl ⟨_, by simp [paths], h1⟩
      | some sys =>
        cases h2 : fileLayer w (w.Join [home, ".woa", configFilename]) with
        | none => exact Or.inl ⟨_, by simp [paths], h2⟩
        | some usr =>
          cases h3 : fileLayer w (w.Join [".", configFilename]) with
          | none => exact Or.inl ⟨_, by simp [paths], h3⟩
          | some cwd =>
            cases henv : w.parseYAML (w.Getenv "WOA_CONFIG") with
            | error m => exact Or.inr (Or.inl ⟨m, rfl⟩)
            | ok env =>
              right
              right
              rw [Load_of_layers w k c home sys usr cwd env hh h1 h2 h3 henv] at herr ⊢
              simp only [] at herr ⊢
              cases hu : (Unmarshal w
                ([sys, usr, cwd, env].foldl merge (merge k (structsProvider defaults))) c).2 with
              | none =>
                rw [hu] at herr
                exact absurd rfl herr
              | some e => exact ⟨e, rfl, by simp⟩
    · left
      simp
  · intro home pre path post ls b m hhome hpaths hpre hr hp
    have hfiles := loadFiles_malformed w pre ls path post
      (merge k (structsProvider defaults)) b m hpre hr hp
    simp [Load, hhome, hpaths, hfiles]

/-- Witness of C8: with no config file at all `Load` succeeds with the
defaults; with a system file setting `:1111`, a malformed user file and a
working-directory file setting `:2222`, `Load` returns the error, the global
koanf instance holds the defaults and the system layer only, and the receiver
is unchanged; with a working-directory file whose `ping` is a string, every
file parses and `Load` fails at the final `k.Unmarshal`. -/
theorem C8_Load_missing_and_malformed_files_witness :
    Load (exampleWorld [] "" exampleDocs) Layer.empty NewConfig
      = { k := structsProvider defaults, c := defaults, err := none } ∧
    Load ((exampleWorld [] "" exampleDocs).withFile "config.yaml" "") Layer.empty NewConfig
      = Load (exampleWorld [] "" exampleDocs) Layer.empty NewConfig ∧
    Load (exampleWorld [("/etc/woa/config.yaml", listenDoc ":1111"),
        ("/home/u/.woa/config.yaml", "machines: ["), ("config.yaml", listenDoc ":2222")]
        (listenDoc ":9999") exampleDocs) Layer.empty NewConfig
      = { k := [listenLayer ":1111"].foldl merge (merge Layer.empty (structsProvider defaults))
          c := NewConfig
          err := some ("failed to load config file: " ++ "yaml: unmarshal errors") } ∧
    (Load (exampleWorld [("config.yaml", "ping: yes please")] "" exampleDocs)
        Layer.empty NewConfig).err
      = some ("failed to unmarshal config: " ++ "'ping' expected a map, got 'string'") :=
  ⟨by decide,
    (C8_Load_missing_and_malformed_files (exampleWorld [] "" exampleDocs) Layer.empty
      NewConfig).1 "config.yaml" "" "open config.yaml: no such file or directory"
      (by decide) (by decide),
    (C8_Load_missing_and_malformed_files
      (exampleWorld [("/etc/woa/config.yaml", listenDoc ":1111"),
        ("/home/u/.woa/config.yaml", "machines: ["), ("config.yaml", listenDoc ":2222")]
        (listenDoc ":9999") exampleDocs) Layer.empty NewConfig).2.2
      "/home/u" ["/etc/woa/config.yaml"] "/home/u/.woa/config.yaml" ["config.yaml"]
      [listenLayer ":1111"] "machines: [" "yaml: unmarshal errors"
      rfl (by decide) (List.Forall₂.cons (by decide) List.Forall₂.nil) (by decide) (by decide),
    by decide⟩

/-- C9: for every 6-octet hardware address, the payload of the magic packet
is 102 bytes long, its bytes 0..5 are `0xFF`, and for every `i` in 0..15 the
six bytes at offsets `6+6i .. 11+6i` are the address; this payload is the one
the send command broadcasts for a `--mac` text that parses to the address. -/
theorem C9_magic_packet_layout (a : HardwareAddr) (h : a.length = 6) :
    (NewMagicPacket a).length = 102 ∧
    (∀ j, j < 6 → (NewMagicPacket a)[j]? = some 0xFF) ∧
    (∀ i, i < 16 → ((NewMagicPacket a).drop (6 + 6 * i)).take 6 = a) ∧
    (∀ (P : Platform) (cfg : Config) (value : String), P.ParseMAC value = (a, none) →
      (Run P cfg ⟨some value, none⟩).1 = [Effect.udpBroadcast (NewMagicPacket a)]) := by
  refine ⟨?_, ?_, ?_, ?_⟩
  · simp [NewMagicPacket, List.length_flatten, h]
  · intro j hj
    simp only [NewMagicPacket]
    rw [List.getElem?_append_left (by simpa using hj)]
    interval_cases j <;> rfl
  · intro i hi
    rcases a with _ | ⟨a0, _ | ⟨a1, _ | ⟨a2, _ | ⟨a3, _ | ⟨a4, _ | ⟨a5, _ | ⟨a6, t⟩⟩⟩⟩⟩⟩⟩ <;>
      simp at h
    interval_cases i <;> rfl
  · intro P cfg value hp
    have hr : retrieveMac P cfg ⟨some value, none⟩ = .ok a := by
      simp [retrieveMac, hp]
    cases hb : P.Broadcast (NewMagicPacket a) <;> simp [Run, hr, hb]

/-- Witness of C9: for the MAC `01:02:03:04:05:06` the payload is
`FF FF FF FF FF FF` followed by `01 02 03 04 05 06` repeated 16 times. -/
theorem C9_magic_packet_layout_witness :
    (asciiPlatform.ParseMAC "01:02:03:04:05:06").1 = [1, 2, 3, 4, 5, 6] ∧
    (NewMagicPacket [1, 2, 3, 4, 5, 6]).length = 102 ∧
    NewMagicPacket [1, 2, 3, 4, 5, 6] =
      [ 0xFF, 0xFF, 0xFF, 0xFF, 0xFF, 0xFF,
        1, 2, 3, 4, 5, 6, 1, 2, 3, 4, 5, 6, 1, 2, 3, 4, 5, 6, 1, 2, 3, 4, 5, 6,
        1, 2, 3, 4, 5, 6, 1, 2, 3, 4, 5, 6, 1, 2, 3, 4, 5, 6, 1, 2, 3, 4, 5, 6,
        1, 2, 3, 4, 5, 6, 1, 2, 3, 4, 5, 6, 1, 2, 3, 4, 5, 6, 1, 2, 3, 4, 5, 6,
        1, 2, 3, 4, 5, 6, 1, 2, 3, 4, 5, 6, 1, 2, 3, 4, 5, 6, 1, 2, 3, 4, 5, 6 ] ∧
    (Run asciiPlatform NewConfig ⟨some "01:02:03:04:05:06", none⟩).1
      = [Effect.udpBroadcast (NewMagicPacket [1, 2, 3, 4, 5, 6])] :=
  ⟨by decide, (C9_magic_packet_layout [1, 2, 3, 4, 5, 6] rfl).1, by decide,
    (C9_magic_packet_layout [1, 2, 3, 4, 5, 6] rfl).2.2.2 asciiPlatform NewConfig
      "01:02:03:04:05:06" (by decide)⟩

/-- C10: under the conditions of a load that reads every source, the machine
list of the configuration resolved into a fresh `Config` is exactly the list
of the last layer, in the order defaults, system file, user file,
working-directory file, `WOA_CONFIG`, that has the key `machines`: nothing of
the earlier layers is kept, and a layer without the key leaves the earlier
list in place.  In particular a `WOA_CONFIG` document that has the key
`machines` replaces the list taken from the files. -/
theorem C10_Load_machines_replaced_wholesale (w : World) (k : Layer) (home : String)
    (sys usr cwd env : Layer) (hhome : w.UserHomeDir = (home, none))
    (hsys : fileLayer w (w.Join ["/etc", "woa", "config.yaml"]) = some sys)
    (husr : fileLayer w (w.Join [home, ".woa", "config.yaml"]) = some usr)
    (hcwd : fileLayer w (w.Join [".", "config.yaml"]) = some cwd)
    (henv : w.parseYAML (w.Getenv "WOA_CONFIG") = .ok env) :
    some (Load w k NewConfig).c.Machines
      = lastDefined Layer.freshMachines [structsProvider defaults, sys, usr, cwd, env] ∧
    (∀ ms, env.freshMachines = some ms → (Load w k NewConfig).c.Machines = ms) ∧
    (∀ ms, env.freshMachines = none → cwd.freshMachines = some ms →
      (Load w k NewConfig).c.Machines = ms) ∧
    (∀ ms, env.freshMachines = none → cwd.freshMachines = none →
      usr.freshMachines = some ms → (Load w k NewConfig).c.Machines = ms) ∧
    (∀ ms, env.freshMachines = none → cwd.freshMachines = none →
      usr.freshMachines = none → sys.freshMachines = some ms →
      (Load w k NewConfig).c.Machines = ms) := by
  rw [Load_of_layers w k NewConfig home sys usr cwd env hhome hsys husr hcwd henv]
  have hK := foldl_merge_lastDefined Layer.freshMachines (fun _ => True)
    (fun k l _ => merge_freshMachines k l) [sys, usr, cwd, env]
    (merge k (structsProvider defaults)) (fun _ _ => trivial)
  have h0 : (merge k (structsProvider defaults)).freshMachines = some [] := by
    rw [merge_freshMachines]
    rfl
  simp only [Unmarshal_fresh_machines, hK]
  simp only [lastDefined, h0]
  have hd : (structsProvider defaults).freshMachines = some [] := rfl
  simp only [hd]
  cases env.freshMachines <;> cases cwd.freshMachines <;> cases usr.freshMachines <;>
    cases sys.freshMachines <;> simp

/-- Witness of C10: the system file lists machines `a` and `b` and the
working-directory file lists machine `c`: the resolved list is `c` alone; with
`WOA_CONFIG` listing machine `d` the resolved list is `d` alone. -/
theorem C10_Load_machines_replaced_wholesale_witness :
    (Load (exampleWorld
        [ ("/etc/woa/config.yaml",
            "machines:\n  - name: a\n    mac: 01:02:03:04:05:06\n  - name: b\n    mac: 11:12:13:14:15:16"),
          ("config.yaml", "machines:\n  - name: c\n    mac: 21:22:23:24:25:26") ]
        "" exampleDocs) Layer.empty NewConfig).c.Machines
      = [⟨"c", "21:22:23:24:25:26", none, none⟩] ∧
    (Load (exampleWorld
        [ ("/etc/woa/config.yaml",
            "machines:\n  - name: a\n    mac: 01:02:03:04:05:06\n  - name: b\n    mac: 11:12:13:14:15:16"),
          ("config.yaml", "machines:\n  - name: c\n    mac: 21:22:23:24:25:26") ]
        "machines:\n  - name: d" exampleDocs) Layer.empty NewConfig).c.Machines
      = [⟨"d", "", none, none⟩] :=
  ⟨(C10_Load_machines_replaced_wholesale _ Layer.empty "/home/u"
      (machinesLayer [⟨"a", "01:02:03:04:05:06", none, none⟩,
        ⟨"b", "11:12:13:14:15:16", none, none⟩])
      Layer.empty (machinesLayer [⟨"c", "21:22:23:24:25:26", none, none⟩]) Layer.empty
      rfl (by decide) (by decide) (by decide) (by decide)).2.2.1 _ rfl rfl,
    (C10_Load_machines_replaced_wholesale _ Layer.empty "/home/u"
      (machinesLayer [⟨"a", "01:02:03:04:05:06", none, none⟩,
        ⟨"b", "11:12:13:14:15:16", none, none⟩])
      Layer.empty (machinesLayer [⟨"c", "21:22:23:24:25:26", none, none⟩])
      (machinesLayer [⟨"d", "", none, none⟩])
      rfl (by decide) (by decide) (by decide) (by decide)).2.1 _ rfl⟩

end Wol
